import Mathlib

/-!
Verification development for the RobloxFormatting repository.

The repository holds two Blender automation scripts:
* `bpyauto.py` — `prepare_for_roblox`: validates a named mesh object and
  armature, bakes scale, optionally decimates, UV-unwraps, optionally wires a
  texture into a material, parents the mesh to the armature with a full-weight
  vertex group on the head bone, creates two scaled cage duplicates, and
  exports the four objects to FBX; any raised error is caught at the top and
  converted to a boolean result.
* `glbtoobj.py` — `batch_convert_glb_to_obj`: for every `.glb` file (case
  insensitive) of a directory, clears the scene, imports the file, selects all
  and exports an `.obj` next to the same base name; per-file errors are logged
  and the loop continues.

The Blender scene graph is embedded shallowly: objects carry the fields the
scripts read or write, host-owned algorithms (decimation, unwrapping, the
actual FBX/OBJ codecs) are recorded as baked operations rather than computed,
and Python exceptions become `Except` values that carry the state at the
moment of the raise (Python does not roll back on an exception).
-/

namespace RobloxFormatting

/-! ### List utilities -/

def modifyAt {α : Type} (f : α → α) : Nat → List α → List α
  | _, [] => []
  | 0, a :: as => f a :: as
  | n + 1, a :: as => a :: modifyAt f n as

def mapWithIdxFrom {α : Type} (f : Nat → α → α) : Nat → List α → List α
  | _, [] => []
  | i, a :: as => f i a :: mapWithIdxFrom f (i + 1) as

/-- Index of the first entry equal to `n`, mirroring a name-keyed registry
lookup such as `bpy.data.objects.get(name)`. -/
def nameIdx? (n : String) : List String → Option Nat
  | [] => none
  | m :: ms => if m = n then some 0 else (nameIdx? n ms).map (· + 1)

/-! ### Path helpers (`os.path` on a POSIX separator) -/

def lastIdxOf (c : Char) : List Char → Option Nat
  | [] => none
  | a :: as =>
    match lastIdxOf c as with
    | some i => some (i + 1)
    | none => if a = c then some 0 else none

def stripTrailing (c : Char) (l : List Char) : List Char :=
  (l.reverse.dropWhile (fun x => x == c)).reverse

/-- `os.path.dirname`: the part before the last separator; a head that is all
separators is kept, otherwise trailing separators are stripped. -/
def dirname (p : String) : String :=
  match lastIdxOf '/' p.data with
  | none => ""
  | some i =>
    let head := p.data.take (i + 1)
    if head.all (fun x => x == '/') then String.mk head
    else String.mk (stripTrailing '/' head)

/-- `os.path.join` for a relative or absolute second component (prefix and
suffix tests are spelled on the character lists so that they evaluate). -/
def os_path_join (a b : String) : String :=
  if ("/" : String).data.isPrefixOf b.data then b
  else if a = "" ∨ ("/" : String).data.isSuffixOf a.data then a ++ b
  else a ++ "/" ++ b

/-- The stem of `os.path.splitext` on a bare file name: split at the last dot
unless every character before it is itself a dot (leading dots are not
extension separators in Python). -/
def splitextStem (s : String) : String :=
  match lastIdxOf '.' s.data with
  | none => s
  | some i =>
    if (s.data.take i).all (fun x => x == '.') then s
    else String.mk (s.data.take i)

/-! ### Scene data model for `bpyauto.py` -/

structure VGroup where
  name : String
  weights : List (Nat × ℚ)
deriving DecidableEq

structure Obj where
  name : String
  objType : String
  dataName : String
  scale : ℚ
  vertices : List (ℚ × ℚ × ℚ)
  decimations : List ℚ
  uvMethod : Option String
  materials : List String
  vertexGroups : List VGroup
  bones : List String
  parent : Option Nat
  parentType : String
  armatureBound : Bool
  selected : Bool
  vertsSelected : Bool
deriving DecidableEq

structure Mat where
  name : String
  useNodes : Bool
  baseColorImage : Option String
deriving DecidableEq

structure Scene where
  objects : List Obj
  materials : List Mat
  active : Option Nat
  mode : String
  filepath : String
deriving DecidableEq

structure FS where
  files : List String
  dirs : List String
deriving DecidableEq

structure St where
  scene : Scene
  fs : FS
  exports : List (String × List String)
deriving DecidableEq

def obj0 : Obj :=
  { name := "", objType := "", dataName := "", scale := 1, vertices := [],
    decimations := [], uvMethod := none, materials := [], vertexGroups := [],
    bones := [], parent := none, parentType := "OBJECT",
    armatureBound := false, selected := false, vertsSelected := false }

def getObjI (sc : Scene) (i : Nat) : Obj := sc.objects.getD i obj0

/-- `bpy.data.objects.get(name)` as the index of the first object so named. -/
def objGet (sc : Scene) (n : String) : Option Nat :=
  nameIdx? n (sc.objects.map (fun o => o.name))

def Scene.updObjs (sc : Scene) (f : List Obj → List Obj) : Scene :=
  { sc with objects := f sc.objects }

def deselObj (o : Obj) : Obj := { o with selected := false }

def Scene.deselectAll (sc : Scene) : Scene := sc.updObjs (List.map deselObj)

def Scene.selectAt (i : Nat) (sc : Scene) : Scene :=
  sc.updObjs (modifyAt (fun o => { o with selected := true }) i)

def Scene.setActive (i : Nat) (sc : Scene) : Scene := { sc with active := some i }

def Scene.setMode (m : String) (sc : Scene) : Scene := { sc with mode := m }

/-- Edit-mode `bpy.ops.mesh.select_all(action='SELECT')` on the object at `i`. -/
def Scene.editSelectAllAt (i : Nat) (sc : Scene) : Scene :=
  sc.updObjs (modifyAt (fun o => { o with vertsSelected := true }) i)

abbrev pathExists (fs : FS) (p : String) : Prop :=
  p ≠ "" ∧ (p ∈ fs.files ∨ p ∈ fs.dirs)

abbrev isDirFS (fs : FS) (p : String) : Prop := p ≠ "" ∧ p ∈ fs.dirs

/-- Python string truthiness of an optional string: `None` and `""` are falsy. -/
def pyTruthy : Option String → Bool
  | none => false
  | some s => s != ""

/-- The configuration record of `prepare_for_roblox` (its parameter list). -/
structure Cfg where
  object_name : String
  accessory_type : String
  attachment_name : String
  rig_name : String := "Armature"
  head_bone_name : String := "Head"
  apply_scale : Bool := true
  decimate_ratio : Option ℚ := none
  export_path : String := ""
  uv_unwrap_method : String := "SMART_PROJECT"
  texture_path : Option String := none
  material_name : String := "RobloxMaterial"
deriving DecidableEq

/-! ### The pipeline steps of `prepare_for_roblox` (bpyauto.py lines 64-236) -/

/-- Step 1 (lines 66-78): resolve the object, the rig and the head bone,
raising `ValueError` on a missing name or a wrong kind. Pure reads only. -/
def validate (cfg : Cfg) (sc : Scene) : Except String (Nat × Nat) :=
  match objGet sc cfg.object_name with
  | none => Except.error ("Object " ++ cfg.object_name ++ " not found or is not a mesh.")
  | some oi =>
    if (getObjI sc oi).objType ≠ "MESH" then
      Except.error ("Object " ++ cfg.object_name ++ " not found or is not a mesh.")
    else
      match objGet sc cfg.rig_name with
      | none => Except.error ("Rig " ++ cfg.rig_name ++ " not found or is not an armature.")
      | some ri =>
        if (getObjI sc ri).objType ≠ "ARMATURE" then
          Except.error ("Rig " ++ cfg.rig_name ++ " not found or is not an armature.")
        else if cfg.head_bone_name ∉ (getObjI sc ri).bones then
          Except.error ("Head bone " ++ cfg.head_bone_name ++ " not found in the armature.")
        else Except.ok (oi, ri)

/-- Exact rational multiplication, written through `mkRat` (it equals `a * b`,
see `qmul_eq_mul`) so that concrete runs evaluate inside the kernel. -/
def qmul (a b : ℚ) : ℚ := mkRat (a.num * b.num) (a.den * b.den)

def scaleV (q : ℚ) (v : ℚ × ℚ × ℚ) : ℚ × ℚ × ℚ := (qmul q v.1, qmul q v.2.1, qmul q v.2.2)

/-- `transform_apply(scale=True)`: bake the object scale into the vertices. -/
def bakeScale (o : Obj) : Obj :=
  { o with vertices := o.vertices.map (scaleV o.scale), scale := 1 }

/-- Step 2 (lines 81-84): make the object active, enter object mode, and bake
its scale when `apply_scale` is set. -/
def stepObjectMode (apply_scale : Bool) (oi : Nat) (st : St) : St :=
  let sc := (st.scene.setActive oi).setMode "OBJECT"
  let sc := if apply_scale then sc.updObjs (modifyAt bakeScale oi) else sc
  { st with scene := sc }

/-- Step 3 (lines 87-93): on a configured ratio, raise unless `0 ≤ r ≤ 1`,
then add and apply a decimate modifier (the host reduction is recorded as a
baked operation on the mesh). -/
def stepDecimate (ratio : Option ℚ) (oi : Nat) (st : St) : Except (String × St) St :=
  match ratio with
  | none => Except.ok st
  | some r =>
    if 0 ≤ r ∧ r ≤ 1 then
      let sc := st.scene.updObjs (modifyAt (fun o => { o with decimations := o.decimations ++ [r] }) oi)
      Except.ok { st with scene := sc }
    else Except.error ("decimate_ratio must be between 0.0 and 1.0", st)

/-- Lines 96-98: activate the object, enter edit mode, select every vertex. -/
def stepUVpre (oi : Nat) (st : St) : St :=
  { st with scene := ((st.scene.setActive oi).setMode "EDIT").editSelectAllAt oi }

/-- Lines 100-106: apply the named unwrap method to the active mesh, raising
`ValueError` on an unrecognized name. -/
def stepUnwrap (m : String) (oi : Nat) (st : St) : Except (String × St) St :=
  if m = "SMART_PROJECT" then
    let sc := st.scene.updObjs (modifyAt (fun o => { o with uvMethod := some "SMART_PROJECT" }) oi)
    Except.ok { st with scene := sc }
  else if m = "UNWRAP" then
    let sc := st.scene.updObjs (modifyAt (fun o => { o with uvMethod := some "UNWRAP" }) oi)
    Except.ok { st with scene := sc }
  else Except.error ("Invalid uv_unwrap_method: " ++ m, st)

def setModeSt (m : String) (st : St) : St := { st with scene := st.scene.setMode m }

/-- The tail of step 5 once the texture file exists: enable nodes on the
material at `mi`, wire a texture-image node of the file into its base color,
and put the material into the object's first slot (overwriting an existing
first slot, appending otherwise). -/
def texTail (p material_name : String) (oi mi : Nat) (mats : List Mat) (st : St) : St :=
  let mats := modifyAt (fun m => { m with useNodes := true, baseColorImage := some p }) mi mats
  let sc := { st.scene with materials := mats }
  let sc := sc.updObjs (modifyAt (fun o =>
    { o with materials :=
        if o.materials.length > 0 then o.materials.set 0 material_name
        else o.materials ++ [material_name] }) oi)
  { st with scene := sc }

/-- Step 5 (lines 110-132): skipped on a falsy texture path; otherwise raise
`FileNotFoundError` when the file is absent, else get-or-create the material
and assign it. -/
def stepTexture (tp : Option String) (material_name : String) (oi : Nat) (st : St) :
    Except (String × St) St :=
  if pyTruthy tp then
    let p := tp.getD ""
    if pathExists st.fs p then
      match nameIdx? material_name (st.scene.materials.map (fun m => m.name)) with
      | some mi => Except.ok (texTail p material_name oi mi st.scene.materials st)
      | none =>
        Except.ok (texTail p material_name oi st.scene.materials.length
          (st.scene.materials ++ [{ name := material_name, useNodes := false, baseColorImage := none }]) st)
    else Except.error ("Texture file not found: " ++ p, st)
  else Except.ok st

/-- `parent_set(type='ARMATURE')`: every selected non-active object is
parented to the active one with an armature-deform binding. -/
def armatureParent (sc : Scene) : Scene :=
  sc.updObjs (fun os => mapWithIdxFrom (fun i o =>
    if o.selected = true ∧ sc.active ≠ some i then
      { o with parent := sc.active, parentType := "ARMATURE", armatureBound := true }
    else o) 0 os)

/-- `vertex_groups.get`/`new`: keep the group when one of that name exists,
otherwise append an empty one. -/
def ensureVG (n : String) (gs : List VGroup) : List VGroup :=
  if gs.any (fun g => g.name == n) then gs else gs ++ [⟨n, []⟩]

/-- `vg.add(indices, w, 'REPLACE')`: assign weight `w` to every listed vertex
of the group named `n`, replacing previous entries for those vertices. -/
def vgAdd (idxs : List Nat) (w : ℚ) (n : String) (gs : List VGroup) : List VGroup :=
  gs.map (fun g =>
    if g.name == n then
      { g with weights := idxs.map (fun i => (i, w)) ++
          g.weights.filter (fun pr => !(idxs.contains pr.1)) }
    else g)

/-- The weight of vertex `i` in the group named `n`, when both exist. -/
def vgWeight (n : String) (i : Nat) (gs : List VGroup) : Option ℚ :=
  (gs.find? (fun g => g.name == n)).bind
    (fun g => (g.weights.find? (fun pr => pr.1 == i)).map (fun pr => pr.2))

/-- Step 6 (lines 134-157): parent the object to the rig with a deform
binding, then give it a head-bone vertex group holding every vertex at full
weight. -/
def stepRig (hb : String) (oi ri : Nat) (st : St) : St :=
  -- obj.parent = rig; obj.parent_type = 'OBJECT'
  let sc := st.scene.updObjs (modifyAt (fun o => { o with parent := some ri, parentType := "OBJECT" }) oi)
  -- deselect all, select rig and object, make the rig active
  let sc := sc.deselectAll
  let sc := sc.selectAt ri
  let sc := sc.selectAt oi
  let sc := sc.setActive ri
  -- parent_set(type='ARMATURE', keep_transform=False)
  let sc := armatureParent sc
  let sc := sc.deselectAll
  -- weight painting on the object
  let sc := (sc.setActive oi).setMode "WEIGHT_PAINT"
  let sc := sc.updObjs (modifyAt (fun o => { o with vertexGroups := ensureVG hb o.vertexGroups }) oi)
  let sc := (sc.setMode "EDIT").editSelectAllAt oi
  let sc := sc.setMode "OBJECT"
  let sc := sc.updObjs (modifyAt (fun o =>
    { o with vertexGroups := vgAdd (List.range o.vertices.length) 1 hb o.vertexGroups }) oi)
  let sc := sc.setMode "WEIGHT_PAINT"
  { st with scene := sc }

/-- The cage object built by `create_cage` (lines 160-196) out of the rigged
source object: a duplicate, renamed, resized in edit mode by the factor,
parented to the rig with the deform binding (`parent_type` is first set to
`'OBJECT'` and then overridden by `parent_set(type='ARMATURE')`), given the
full-weight head-bone group, and left deselected by the closing
`select_all(action='DESELECT')`. -/
def mkCage (src : Obj) (ri : Nat) (hb cage_name : String) (q : ℚ) : Obj :=
  let c := src
  let c := { c with name := cage_name, dataName := cage_name }
  let c := { c with vertices := if c.vertsSelected then c.vertices.map (scaleV q) else c.vertices }
  let c := { c with parent := some ri, parentType := "ARMATURE", armatureBound := true }
  let c := { c with vertexGroups := ensureVG hb c.vertexGroups }
  let c := { c with vertexGroups := vgAdd (List.range c.vertices.length) 1 hb c.vertexGroups }
  { c with selected := false }

/-- Step 7 body: duplicate the object at `oi` into a cage appended to the
scene; the surrounding selection traffic leaves every pre-existing object
deselected, the new cage active, and the mode at `'OBJECT'`. -/
def create_cage (hb : String) (oi ri : Nat) (cage_name : String) (q : ℚ) (st : St) : St :=
  let cage := mkCage (getObjI st.scene oi) ri hb cage_name q
  let sc := st.scene.deselectAll
  let sc := { sc with objects := sc.objects ++ [cage],
                      active := some sc.objects.length, mode := "OBJECT" }
  { st with scene := sc }

/-- Lines 202-205: the output file path — the explicit path, or
`<dir>/<object>.fbx` under an existing directory, or beside the blend file
when empty. -/
def resolve_export_path (export_path object_name filepath : String) (fs : FS) : String :=
  if export_path = "" then dirname filepath ++ "/" ++ object_name ++ ".fbx"
  else if isDirFS fs export_path then os_path_join export_path (object_name ++ ".fbx")
  else export_path

/-- `os.makedirs`: fails on the empty path (Python raises
`FileNotFoundError` there), otherwise records the directory. -/
def makedirs (p : String) (fs : FS) : Except String FS :=
  if p = "" then Except.error ("No such file or directory: " ++ p)
  else Except.ok { fs with dirs := fs.dirs ++ [p] }

def ensureDir (p : String) (fs : FS) : Except String FS :=
  if pathExists fs p then Except.ok fs else makedirs p fs

/-- Step 8 (lines 201-231): resolve the path, create its directory if
missing, select the object, the rig and both cages (looked up by name, a
`KeyError` when absent), and write the FBX. Returns the resolved path. -/
def stepExport (object_name export_path : String) (oi ri : Nat) (st : St) :
    Except (String × St) (St × String) :=
  let path := resolve_export_path export_path object_name st.scene.filepath st.fs
  match ensureDir (dirname path) st.fs with
  | Except.error m => Except.error (m, st)
  | Except.ok fs2 =>
    let st := { st with fs := fs2 }
    let sc := st.scene.deselectAll
    let sc := sc.selectAt oi
    let sc := sc.selectAt ri
    match objGet sc "InnerCage" with
    | none => Except.error ("KeyError: InnerCage", { st with scene := sc })
    | some ii =>
      let sc := sc.selectAt ii
      match objGet sc "OuterCage" with
      | none => Except.error ("KeyError: OuterCage", { st with scene := sc })
      | some ui =>
        let sc := sc.selectAt ui
        let names := (sc.objects.filter (fun o => o.selected)).map (fun o => o.name)
        Except.ok ({ st with scene := sc, exports := st.exports ++ [(path, names)] }, path)

/-- The `try` body of `prepare_for_roblox`: the eight steps in sequence, each
error carrying the state at the moment of the raise. -/
def pipeline (cfg : Cfg) (st0 : St) : Except (String × St) (St × String) :=
  match validate cfg st0.scene with
  | Except.error m => Except.error (m, st0)
  | Except.ok (oi, ri) =>
    match stepDecimate cfg.decimate_ratio oi (stepObjectMode cfg.apply_scale oi st0) with
    | Except.error e => Except.error e
    | Except.ok st2 =>
      match stepUnwrap cfg.uv_unwrap_method oi (stepUVpre oi st2) with
      | Except.error e => Except.error e
      | Except.ok st3 =>
        match stepTexture cfg.texture_path cfg.material_name oi (setModeSt "OBJECT" st3) with
        | Except.error e => Except.error e
        | Except.ok st4 =>
          stepExport cfg.object_name cfg.export_path oi ri
            (create_cage cfg.head_bone_name oi ri "OuterCage" (mkRat 51 50)
              (create_cage cfg.head_bone_name oi ri "InnerCage" (mkRat 49 50)
                (stepRig cfg.head_bone_name oi ri st4)))

/-- `prepare_for_roblox` (lines 33-236): run the pipeline, catch any error at
the top, print a diagnostic and return the boolean outcome together with the
final state and the printed lines. -/
def prepare_for_roblox (cfg : Cfg) (st0 : St) : Bool × St × List String :=
  match pipeline cfg st0 with
  | Except.ok (st, p) => (true, st, ["Successfully exported to: " ++ p])
  | Except.error (m, st) => (false, st, ["Error: " ++ m])

/-! ### Model of `glbtoobj.py` -/

/-- The observable actions of the converter, in chronological order. -/
inductive BEvent where
  | cleared : BEvent
  | imported : String → BEvent
  | selectedAll : BEvent
  | exportedObj : String → BEvent
  | logSuccess : String → String → BEvent
  | logError : String → BEvent
  | madeDir : String → BEvent
deriving DecidableEq

/-- The host side of the converter: what `import_scene.gltf` yields for a
path, `none` when the import throws. -/
structure BFS where
  importResult : String → Option (List String)

structure BSt where
  objs : List String
  events : List BEvent
  dirs : List String
  outputs : List (String × List String)

/-- `convert_glb_to_obj` (glbtoobj.py lines 4-40): clear the scene, import
the GLB, select everything, export the OBJ; any error inside is caught,
logged and turned into `False`. -/
def convert_glb_to_obj (fs : BFS) (glb_filepath obj_filepath : String) (st : BSt) : Bool × BSt :=
  -- select_all(action='SELECT'); delete(use_global=False)
  let st1 : BSt := { st with objs := [], events := st.events ++ [BEvent.cleared] }
  match fs.importResult glb_filepath with
  | none =>
    -- the raised import error is caught by the except branch and printed
    (false, { st1 with events := st1.events ++ [BEvent.logError glb_filepath] })
  | some objs =>
    let ev2 := st1.events ++ [BEvent.imported glb_filepath, BEvent.selectedAll]
    let st2 : BSt := { st1 with objs := objs, events := ev2 }
    let ev3 := st2.events ++ [BEvent.exportedObj obj_filepath, BEvent.logSuccess glb_filepath obj_filepath]
    let st3 : BSt := { st2 with outputs := st2.outputs ++ [(obj_filepath, st2.objs)], events := ev3 }
    (true, st3)

/-- The `for filename in os.listdir(input_folder)` loop (lines 56-61). -/
def batchLoop (fs : BFS) (input_folder output_folder : String) : List String → BSt → BSt
  | [], st => st
  | f :: rest, st =>
    if (f.toLower).endsWith ".glb" then
      let glb_path := os_path_join input_folder f
      let obj_path := os_path_join output_folder (splitextStem f ++ ".obj")
      batchLoop fs input_folder output_folder rest (convert_glb_to_obj fs glb_path obj_path st).2
    else batchLoop fs input_folder output_folder rest st

/-- `batch_convert_glb_to_obj` (lines 44-61): create the output folder when
absent, then run the loop over the directory listing. -/
def batch_convert_glb_to_obj (fs : BFS) (input_folder output_folder : String)
    (files : List String) (st : BSt) : BSt :=
  let st0 := if output_folder ∈ st.dirs then st
    else { st with dirs := st.dirs ++ [output_folder],
                   events := st.events ++ [BEvent.madeDir output_folder] }
  batchLoop fs input_folder output_folder files st0

/-- The event trace one file's conversion appends, as a function of the
host's import outcome. -/
def convertTrace (fs : BFS) (glb obj : String) : List BEvent :=
  match fs.importResult glb with
  | none => [BEvent.cleared, BEvent.logError glb]
  | some _ => [BEvent.cleared, BEvent.imported glb, BEvent.selectedAll,
      BEvent.exportedObj obj, BEvent.logSuccess glb obj]

/-- The destination path the batch loop computes for a matching file. -/
def batchOutPath (output_folder f : String) : String :=
  os_path_join output_folder (splitextStem f ++ ".obj")

/-- Recognizes a per-file failure log line of the batch converter. -/
def isErrLog : BEvent → Bool
  | BEvent.logError _ => true
  | _ => false

/-! ### Observers and invariants used by the statements -/

def namesOf (st : St) : List String := st.scene.objects.map (fun o => o.name)

def typesOf (st : St) : List String := st.scene.objects.map (fun o => o.objType)

/-- What steps 2-6 leave untouched: the filesystem, the export list, the blend
file path, and the name and kind of every scene object. -/
def PresCore (st st' : St) : Prop :=
  st'.fs = st.fs ∧ st'.exports = st.exports ∧ st'.scene.filepath = st.scene.filepath ∧
  namesOf st' = namesOf st ∧ typesOf st' = typesOf st

/-- What the pre-unwrap steps leave untouched: everything except the active
object and mode bookkeeping, the selection flags, and the baked geometry
(vertices, scale, decimations). -/
def PresEarly (st st' : St) : Prop :=
  st'.fs = st.fs ∧ st'.exports = st.exports ∧ st'.scene.materials = st.scene.materials ∧
  st'.scene.filepath = st.scene.filepath ∧
  st'.scene.objects.map (fun o => o.name) = st.scene.objects.map (fun o => o.name) ∧
  st'.scene.objects.map (fun o => o.uvMethod) = st.scene.objects.map (fun o => o.uvMethod) ∧
  st'.scene.objects.map (fun o => o.parent) = st.scene.objects.map (fun o => o.parent) ∧
  st'.scene.objects.map (fun o => o.vertexGroups) = st.scene.objects.map (fun o => o.vertexGroups) ∧
  st'.scene.objects.map (fun o => o.materials) = st.scene.objects.map (fun o => o.materials)

/-- What step 6 does to the prepared object: rig parenting with the deform
binding, every vertex selected, and the full-weight head-bone group. -/
def rigT (ri : Nat) (hb : String) (o : Obj) : Obj :=
  { o with parent := some ri, parentType := "ARMATURE", armatureBound := true,
           selected := false, vertsSelected := true,
           vertexGroups := vgAdd (List.range o.vertices.length) 1 hb (ensureVG hb o.vertexGroups) }

/-- The properties claimed of a cage object: a mesh duplicate of the source
scaled by the factor, rig-parented with the deform binding, carrying a
head-bone vertex group that holds every vertex at weight one. -/
def cageProps (c src : Obj) (ri : Nat) (hb : String) (q : ℚ) : Prop :=
  c.objType = "MESH" ∧ c.dataName = c.name ∧
  c.vertices = src.vertices.map (scaleV q) ∧
  c.decimations = src.decimations ∧ c.uvMethod = src.uvMethod ∧
  c.materials = src.materials ∧
  c.parent = some ri ∧ c.parentType = "ARMATURE" ∧ c.armatureBound = true ∧
  (∃ g ∈ c.vertexGroups, g.name = hb) ∧
  (∀ i, i < c.vertices.length → vgWeight hb i c.vertexGroups = some 1)

/-! ### Concrete scene used by the witnesses and counterexamples -/

def wPart : Obj :=
  { name := "Part", objType := "MESH", dataName := "PartMesh", scale := 2,
    vertices := [(1, 2, 3)], decimations := [], uvMethod := none,
    materials := [], vertexGroups := [], bones := [], parent := none,
    parentType := "OBJECT", armatureBound := false, selected := false,
    vertsSelected := false }

def wRig : Obj :=
  { name := "Rig", objType := "ARMATURE", dataName := "RigData", scale := 1,
    vertices := [], decimations := [], uvMethod := none, materials := [],
    vertexGroups := [], bones := ["Head"], parent := none,
    parentType := "OBJECT", armatureBound := false, selected := false,
    vertsSelected := false }

def wScene : Scene :=
  { objects := [wPart, wRig], materials := [], active := none,
    mode := "OBJECT", filepath := "/blend/scene.blend" }

def wSt : St :=
  { scene := wScene, fs := { files := ["/tex/t.png"], dirs := ["out"] }, exports := [] }

def wCfg : Cfg :=
  { object_name := "Part", accessory_type := "Hat", attachment_name := "HatAttachment",
    rig_name := "Rig", head_bone_name := "Head", apply_scale := true,
    decimate_ratio := some (mkRat 1 2), export_path := "out",
    uv_unwrap_method := "SMART_PROJECT", texture_path := some "/tex/t.png",
    material_name := "M" }

/-! ### List lemmas for the scene operations -/

theorem qmul_eq_mul (a b : ℚ) : qmul a b = a * b := by
  rw [Rat.mul_def, Rat.normalize_eq_mkRat]
  rfl

theorem modifyAt_nil {α : Type} (f : α → α) (n : Nat) : modifyAt f n [] = [] := by
  cases n <;> rfl

theorem length_modifyAt {α : Type} (f : α → α) (n : Nat) (l : List α) :
    (modifyAt f n l).length = l.length := by
  induction l generalizing n with
  | nil => simp [modifyAt_nil]
  | cons a as ih =>
    cases n with
    | zero => rfl
    | succ m => simp [modifyAt, ih]

theorem map_modifyAt {α β : Type} (f : α → α) (g : α → β) (n : Nat) (l : List α)
    (h : ∀ a, g (f a) = g a) : (modifyAt f n l).map g = l.map g := by
  induction l generalizing n with
  | nil => simp [modifyAt_nil]
  | cons a as ih =>
    cases n with
    | zero => simp [modifyAt, h]
    | succ m => simp [modifyAt, ih]

theorem getD_modifyAt_self {α : Type} (f : α → α) (n : Nat) (l : List α) (d : α)
    (h : n < l.length) : (modifyAt f n l).getD n d = f (l.getD n d) := by
  induction l generalizing n with
  | nil => simp at h
  | cons a as ih =>
    cases n with
    | zero => rfl
    | succ m =>
      have hm : m < as.length := by simpa using h
      simpa [modifyAt] using ih m hm

theorem getD_modifyAt_ne {α : Type} (f : α → α) (n m : Nat) (l : List α) (d : α)
    (h : m ≠ n) : (modifyAt f n l).getD m d = l.getD m d := by
  induction l generalizing n m with
  | nil => simp [modifyAt_nil]
  | cons a as ih =>
    cases n with
    | zero =>
      cases m with
      | zero => exact absurd rfl h
      | succ k => simp [modifyAt]
    | succ n' =>
      cases m with
      | zero => simp [modifyAt]
      | succ k => simpa [modifyAt] using ih n' k (fun hk => h (by simp [hk]))

theorem length_mapWithIdxFrom {α : Type} (f : Nat → α → α) (k : Nat) (l : List α) :
    (mapWithIdxFrom f k l).length = l.length := by
  induction l generalizing k with
  | nil => rfl
  | cons a as ih => simp [mapWithIdxFrom, ih]

theorem map_mapWithIdxFrom {α β : Type} (f : Nat → α → α) (g : α → β) (k : Nat) (l : List α)
    (h : ∀ i a, g (f i a) = g a) : (mapWithIdxFrom f k l).map g = l.map g := by
  induction l generalizing k with
  | nil => rfl
  | cons a as ih => simp [mapWithIdxFrom, h, ih]

theorem getD_mapWithIdxFrom {α : Type} (f : Nat → α → α) (k m : Nat) (l : List α) (d : α)
    (h : m < l.length) : (mapWithIdxFrom f k l).getD m d = f (k + m) (l.getD m d) := by
  induction l generalizing k m with
  | nil => simp at h
  | cons a as ih =>
    cases m with
    | zero => simp [mapWithIdxFrom]
    | succ m' =>
      have hm : m' < as.length := by simpa using h
      have := ih (k + 1) m' hm
      simpa [mapWithIdxFrom, Nat.add_assoc, Nat.add_comm 1 m'] using this

theorem getD_map_my {α β : Type} (f : α → β) (l : List α) (i : Nat) (d : α) :
    (l.map f).getD i (f d) = f (l.getD i d) := by
  induction l generalizing i with
  | nil => simp
  | cons a as ih =>
    cases i with
    | zero => rfl
    | succ j => simpa using ih j

theorem getD_append_left_my {α : Type} (l₁ l₂ : List α) (i : Nat) (d : α)
    (h : i < l₁.length) : (l₁ ++ l₂).getD i d = l₁.getD i d := by
  induction l₁ generalizing i with
  | nil => simp at h
  | cons a as ih =>
    cases i with
    | zero => rfl
    | succ j =>
      have hj : j < as.length := by simpa using h
      simpa using ih j hj

theorem nameIdx?_lt (n : String) (ms : List String) (i : Nat)
    (h : nameIdx? n ms = some i) : i < ms.length := by
  induction ms generalizing i with
  | nil => simp [nameIdx?] at h
  | cons m ms ih =>
    by_cases hm : m = n
    · simp [nameIdx?, hm] at h
      simp [List.length_cons]
      omega
    · simp [nameIdx?, hm] at h
      rcases h with ⟨j, hj, rfl⟩
      have := ih j hj
      simp [List.length_cons]
      omega

theorem nameIdx?_getD (n : String) (ms : List String) (i : Nat) (d : String)
    (h : nameIdx? n ms = some i) : ms.getD i d = n := by
  induction ms generalizing i with
  | nil => simp [nameIdx?] at h
  | cons m ms ih =>
    by_cases hm : m = n
    · simp [nameIdx?, hm] at h
      simp [← h, hm]
    · simp [nameIdx?, hm] at h
      rcases h with ⟨j, hj, rfl⟩
      simpa using ih j hj

theorem nameIdx?_append_left (n : String) (ms ms2 : List String) (i : Nat)
    (h : nameIdx? n ms = some i) : nameIdx? n (ms ++ ms2) = some i := by
  induction ms generalizing i with
  | nil => simp [nameIdx?] at h
  | cons m ms ih =>
    by_cases hm : m = n
    · simp [nameIdx?, hm] at h ⊢
      exact h
    · simp [nameIdx?, hm] at h ⊢
      rcases h with ⟨j, hj, rfl⟩
      exact ⟨j, ih j hj, rfl⟩

theorem nameIdx?_eq_none (n : String) (ms : List String) :
    nameIdx? n ms = none ↔ n ∉ ms := by
  induction ms with
  | nil => simp [nameIdx?]
  | cons m ms ih =>
    by_cases hm : m = n
    · simp [nameIdx?, hm]
    · simp [nameIdx?, hm, ih, List.mem_cons]
      exact fun _ he => hm he.symm

theorem nameIdx?_append_of_none (n : String) (ms ms2 : List String)
    (h : nameIdx? n ms = none) :
    nameIdx? n (ms ++ ms2) = (nameIdx? n ms2).map (· + ms.length) := by
  induction ms with
  | nil => simp
  | cons m ms ih =>
    by_cases hm : m = n
    · simp [nameIdx?, hm] at h
    · simp [nameIdx?, hm] at h ⊢
      rw [ih h]
      cases nameIdx? n ms2 <;> simp <;> omega

theorem find?_append_some {α : Type} (p : α → Bool) (l₁ l₂ : List α) (x : α)
    (h : l₁.find? p = some x) : (l₁ ++ l₂).find? p = some x := by
  induction l₁ with
  | nil => simp [List.find?] at h
  | cons a as ih =>
    cases ha : p a with
    | true =>
      rw [List.find?_cons_of_pos _ ha] at h
      rw [List.cons_append, List.find?_cons_of_pos _ ha]
      exact h
    | false =>
      rw [List.find?_cons_of_neg _ (by simp [ha])] at h
      rw [List.cons_append, List.find?_cons_of_neg _ (by simp [ha])]
      exact ih h

/-! ### Vertex-group lemmas -/

theorem vgAdd_names (idxs : List Nat) (w : ℚ) (n : String) (gs : List VGroup) :
    (vgAdd idxs w n gs).map (fun g => g.name) = gs.map (fun g => g.name) := by
  unfold vgAdd
  rw [List.map_map]
  apply List.map_congr_left
  intro a _
  by_cases ha : (a.name == n) = true
  · simp only [Function.comp_apply, if_pos ha]
  · simp only [Function.comp_apply, if_neg ha]

theorem vgAdd_any (idxs : List Nat) (w : ℚ) (n : String) (gs : List VGroup) :
    (vgAdd idxs w n gs).any (fun g => g.name == n) = gs.any (fun g => g.name == n) := by
  induction gs with
  | nil => rfl
  | cons g rest ih =>
    by_cases hg : (g.name == n) = true
    · simp only [vgAdd, List.map_cons, List.any_cons] at ih ⊢
      rw [if_pos hg]
      simp only [hg, Bool.true_or]
    · simp only [vgAdd, List.map_cons, List.any_cons] at ih ⊢
      rw [if_neg hg]
      simp only [hg, Bool.false_or]
      exact ih

theorem ensureVG_any (n : String) (gs : List VGroup) :
    (ensureVG n gs).any (fun g => g.name == n) = true := by
  by_cases h : gs.any (fun g => g.name == n) = true
  · simp [ensureVG, h]
  · have h' : gs.any (fun g => g.name == n) = false := by simpa using h
    simp [ensureVG, h', List.any_append]

theorem find?_mapPair (idxs : List Nat) (w : ℚ) (i : Nat) (hi : i ∈ idxs) :
    (idxs.map (fun j => ((j, w) : Nat × ℚ))).find? (fun pr => pr.1 == i) = some (i, w) := by
  induction idxs with
  | nil => simp at hi
  | cons j rest ih =>
    by_cases hj : j = i
    · subst hj
      rw [List.map_cons, List.find?_cons_of_pos _ (by simp)]
    · have hi' : i ∈ rest := by
        rcases List.mem_cons.mp hi with h | h
        · exact absurd h.symm hj
        · exact h
      rw [List.map_cons, List.find?_cons_of_neg _ (by simp [hj])]
      exact ih hi'

theorem vgWeight_vgAdd (n : String) (w : ℚ) (idxs : List Nat) (gs : List VGroup) (i : Nat)
    (hany : gs.any (fun g => g.name == n) = true) (hi : i ∈ idxs) :
    vgWeight n i (vgAdd idxs w n gs) = some w := by
  induction gs with
  | nil => simp at hany
  | cons g rest ih =>
    by_cases hg : (g.name == n) = true
    · simp only [vgAdd, List.map_cons]
      rw [if_pos hg]
      unfold vgWeight
      rw [List.find?_cons_of_pos _ (by simpa using hg)]
      rw [Option.some_bind']
      rw [find?_append_some _ _ _ _ (find?_mapPair idxs w i hi)]
      rfl
    · have hrest : rest.any (fun g => g.name == n) = true := by
        simp only [List.any_cons, hg, Bool.false_or] at hany
        exact hany
      simp only [vgAdd, List.map_cons]
      rw [if_neg hg]
      unfold vgWeight
      rw [List.find?_cons_of_neg _ (by simp [hg])]
      have := ih hrest
      unfold vgWeight vgAdd at this
      exact this

theorem vgWeight_cage (hb : String) (gs : List VGroup) (len i : Nat) (hi : i < len) :
    vgWeight hb i (vgAdd (List.range len) 1 hb (ensureVG hb gs)) = some 1 :=
  vgWeight_vgAdd hb 1 (List.range len) (ensureVG hb gs) i (ensureVG_any hb gs)
    (List.mem_range.mpr hi)

theorem exists_name_vgAdd_ensure (hb : String) (idxs : List Nat) (w : ℚ) (gs : List VGroup) :
    ∃ g ∈ vgAdd idxs w hb (ensureVG hb gs), g.name = hb := by
  have h2 : (vgAdd idxs w hb (ensureVG hb gs)).any (fun g => g.name == hb) = true := by
    rw [vgAdd_any]
    exact ensureVG_any hb gs
  rcases List.any_eq_true.mp h2 with ⟨g, hg, hname⟩
  exact ⟨g, hg, by simpa using hname⟩

/-! ### Preservation facts about the pipeline steps -/

theorem presCore_refl (st : St) : PresCore st st := ⟨rfl, rfl, rfl, rfl, rfl⟩

theorem presCore_trans {a b c : St} (h1 : PresCore a b) (h2 : PresCore b c) :
    PresCore a c :=
  ⟨h2.1.trans h1.1, h2.2.1.trans h1.2.1, h2.2.2.1.trans h1.2.2.1,
   h2.2.2.2.1.trans h1.2.2.2.1, h2.2.2.2.2.trans h1.2.2.2.2⟩

theorem presCore_length {a b : St} (h : PresCore a b) :
    b.scene.objects.length = a.scene.objects.length := by
  have := congrArg List.length h.2.2.2.1
  simpa [namesOf] using this

theorem presCore_stepObjectMode (b : Bool) (oi : Nat) (st : St) :
    PresCore st (stepObjectMode b oi st) := by
  cases b with
  | false => exact ⟨rfl, rfl, rfl, rfl, rfl⟩
  | true =>
    refine ⟨rfl, rfl, rfl, ?_, ?_⟩
    · exact map_modifyAt bakeScale _ oi _ (fun a => rfl)
    · exact map_modifyAt bakeScale _ oi _ (fun a => rfl)

theorem stepDecimate_ok_elim (r : Option ℚ) (oi : Nat) (st st' : St)
    (h : stepDecimate r oi st = Except.ok st') : PresCore st st' := by
  cases r with
  | none =>
    simp only [stepDecimate] at h
    injection h with h
    subst h
    exact presCore_refl st
  | some q =>
    simp only [stepDecimate] at h
    split at h
    · injection h with h
      subst h
      refine ⟨rfl, rfl, rfl, ?_, ?_⟩ <;> exact map_modifyAt _ _ oi _ (fun a => rfl)
    · cases h

theorem presCore_stepUVpre (oi : Nat) (st : St) : PresCore st (stepUVpre oi st) := by
  refine ⟨rfl, rfl, rfl, ?_, ?_⟩ <;> exact map_modifyAt _ _ oi _ (fun a => rfl)

theorem stepUnwrap_ok_elim (m : String) (oi : Nat) (st st' : St)
    (h : stepUnwrap m oi st = Except.ok st') : PresCore st st' := by
  simp only [stepUnwrap] at h
  split at h
  · injection h with h
    subst h
    refine ⟨rfl, rfl, rfl, ?_, ?_⟩ <;> exact map_modifyAt _ _ oi _ (fun a => rfl)
  · split at h
    · injection h with h
      subst h
      refine ⟨rfl, rfl, rfl, ?_, ?_⟩ <;> exact map_modifyAt _ _ oi _ (fun a => rfl)
    · cases h

theorem presCore_setModeSt (m : String) (st : St) : PresCore st (setModeSt m st) :=
  ⟨rfl, rfl, rfl, rfl, rfl⟩

theorem presCore_texTail (p mn : String) (oi mi : Nat) (mats : List Mat) (st : St) :
    PresCore st (texTail p mn oi mi mats st) := by
  refine ⟨rfl, rfl, rfl, ?_, ?_⟩ <;> exact map_modifyAt _ _ oi _ (fun a => rfl)

theorem stepTexture_ok_elim (tp : Option String) (mn : String) (oi : Nat) (st st' : St)
    (h : stepTexture tp mn oi st = Except.ok st') : PresCore st st' := by
  simp only [stepTexture] at h
  split at h
  · split at h
    · split at h
      · injection h with h
        subst h
        exact presCore_texTail _ _ _ _ _ _
      · injection h with h
        subst h
        exact presCore_texTail _ _ _ _ _ _
    · cases h
  · injection h with h
    subst h
    exact presCore_refl st

theorem presEarly_refl (st : St) : PresEarly st st :=
  ⟨rfl, rfl, rfl, rfl, rfl, rfl, rfl, rfl, rfl⟩

theorem presEarly_trans {a b c : St} (h1 : PresEarly a b) (h2 : PresEarly b c) :
    PresEarly a c :=
  ⟨h2.1.trans h1.1, h2.2.1.trans h1.2.1, h2.2.2.1.trans h1.2.2.1,
   h2.2.2.2.1.trans h1.2.2.2.1, h2.2.2.2.2.1.trans h1.2.2.2.2.1,
   h2.2.2.2.2.2.1.trans h1.2.2.2.2.2.1, h2.2.2.2.2.2.2.1.trans h1.2.2.2.2.2.2.1,
   h2.2.2.2.2.2.2.2.1.trans h1.2.2.2.2.2.2.2.1, h2.2.2.2.2.2.2.2.2.trans h1.2.2.2.2.2.2.2.2⟩

theorem presEarly_stepObjectMode (b : Bool) (oi : Nat) (st : St) :
    PresEarly st (stepObjectMode b oi st) := by
  cases b with
  | false => exact presEarly_refl st
  | true =>
    refine ⟨rfl, rfl, rfl, rfl, ?_, ?_, ?_, ?_, ?_⟩ <;>
      exact map_modifyAt _ _ oi _ (fun a => rfl)

theorem stepDecimate_ok_presEarly (r : Option ℚ) (oi : Nat) (st st' : St)
    (h : stepDecimate r oi st = Except.ok st') : PresEarly st st' := by
  cases r with
  | none =>
    simp only [stepDecimate] at h
    injection h with h
    subst h
    exact presEarly_refl st
  | some q =>
    simp only [stepDecimate] at h
    split at h
    · injection h with h
      subst h
      refine ⟨rfl, rfl, rfl, rfl, ?_, ?_, ?_, ?_, ?_⟩ <;>
        exact map_modifyAt _ _ oi _ (fun a => rfl)
    · cases h

theorem presEarly_stepUVpre (oi : Nat) (st : St) : PresEarly st (stepUVpre oi st) := by
  refine ⟨rfl, rfl, rfl, rfl, ?_, ?_, ?_, ?_, ?_⟩ <;>
    exact map_modifyAt _ _ oi _ (fun a => rfl)

theorem name_armUpd (act : Option Nat) (i : Nat) (a : Obj) :
    (if a.selected = true ∧ act ≠ some i then
      { a with parent := act, parentType := "ARMATURE", armatureBound := true }
    else a).name = a.name := by
  split <;> rfl

theorem objType_armUpd (act : Option Nat) (i : Nat) (a : Obj) :
    (if a.selected = true ∧ act ≠ some i then
      { a with parent := act, parentType := "ARMATURE", armatureBound := true }
    else a).objType = a.objType := by
  split <;> rfl

theorem deselObj_name (o : Obj) : (deselObj o).name = o.name := rfl

theorem deselObj_objType (o : Obj) : (deselObj o).objType = o.objType := rfl

theorem map_name_map_deselObj (l : List Obj) :
    (l.map deselObj).map (fun o => o.name) = l.map (fun o => o.name) := by
  rw [List.map_map]
  rfl

theorem map_objType_map_deselObj (l : List Obj) :
    (l.map deselObj).map (fun o => o.objType) = l.map (fun o => o.objType) := by
  rw [List.map_map]
  rfl

theorem presCore_stepRig (hb : String) (oi ri : Nat) (st : St) :
    PresCore st (stepRig hb oi ri st) := by
  refine ⟨rfl, rfl, rfl, ?_, ?_⟩
  · show ((stepRig hb oi ri st).scene.objects).map (fun o => o.name) = _
    simp only [stepRig, Scene.updObjs, Scene.deselectAll, Scene.selectAt, Scene.setActive,
      Scene.setMode, Scene.editSelectAllAt, armatureParent]
    simp [map_modifyAt, map_mapWithIdxFrom, map_name_map_deselObj, apply_ite,
      Function.comp_def, deselObj_name, namesOf]
  · show ((stepRig hb oi ri st).scene.objects).map (fun o => o.objType) = _
    simp only [stepRig, Scene.updObjs, Scene.deselectAll, Scene.selectAt, Scene.setActive,
      Scene.setMode, Scene.editSelectAllAt, armatureParent]
    simp [map_modifyAt, map_mapWithIdxFrom, map_objType_map_deselObj, apply_ite,
      Function.comp_def, deselObj_objType, typesOf]

/-! ### Inversion of validation and of the success path -/

theorem validate_ok_elim (cfg : Cfg) (sc : Scene) (oi ri : Nat)
    (h : validate cfg sc = Except.ok (oi, ri)) :
    objGet sc cfg.object_name = some oi ∧ (getObjI sc oi).objType = "MESH" ∧
    objGet sc cfg.rig_name = some ri ∧ (getObjI sc ri).objType = "ARMATURE" ∧
    cfg.head_bone_name ∈ (getObjI sc ri).bones := by
  unfold validate at h
  repeat' split at h
  all_goals try (simp at h)
  obtain ⟨h1, h2⟩ := h
  subst h1
  subst h2
  refine ⟨?_, ?_, ?_, ?_, ?_⟩ <;> simp_all

theorem objGet_congr_names {sc sc' : Scene}
    (h : sc'.objects.map (fun o => o.name) = sc.objects.map (fun o => o.name))
    (n : String) : objGet sc' n = objGet sc n := by
  unfold objGet
  rw [h]

theorem getObjI_objType_congr {sc sc' : Scene}
    (h : sc'.objects.map (fun o => o.objType) = sc.objects.map (fun o => o.objType))
    (i : Nat) : (getObjI sc' i).objType = (getObjI sc i).objType := by
  have e1 := getD_map_my (fun o => o.objType) sc'.objects i obj0
  have e2 := getD_map_my (fun o => o.objType) sc.objects i obj0
  unfold getObjI
  rw [← e1, ← e2, h]

theorem pipeline_ok_elim (cfg : Cfg) (st0 stF : St) (p : String)
    (h : pipeline cfg st0 = Except.ok (stF, p)) :
    ∃ oi ri st4, validate cfg st0.scene = Except.ok (oi, ri) ∧ PresCore st0 st4 ∧
      stepExport cfg.object_name cfg.export_path oi ri
        (create_cage cfg.head_bone_name oi ri "OuterCage" (mkRat 51 50)
          (create_cage cfg.head_bone_name oi ri "InnerCage" (mkRat 49 50)
            (stepRig cfg.head_bone_name oi ri st4))) = Except.ok (stF, p) := by
  unfold pipeline at h
  cases hv : validate cfg st0.scene with
  | error m => rw [hv] at h; cases h
  | ok pr =>
    obtain ⟨oi, ri⟩ := pr
    rw [hv] at h
    simp only [] at h
    cases hd : stepDecimate cfg.decimate_ratio oi (stepObjectMode cfg.apply_scale oi st0) with
    | error e => rw [hd] at h; cases h
    | ok st2 =>
      rw [hd] at h
      simp only [] at h
      cases hu : stepUnwrap cfg.uv_unwrap_method oi (stepUVpre oi st2) with
      | error e => rw [hu] at h; cases h
      | ok st3 =>
        rw [hu] at h
        simp only [] at h
        cases ht : stepTexture cfg.texture_path cfg.material_name oi (setModeSt "OBJECT" st3) with
        | error e => rw [ht] at h; cases h
        | ok st4 =>
          rw [ht] at h
          simp only [] at h
          refine ⟨oi, ri, st4, rfl, ?_, ?_⟩
          · have p1 := presCore_stepObjectMode cfg.apply_scale oi st0
            have p2 := stepDecimate_ok_elim _ _ _ _ hd
            have p3 := presCore_stepUVpre oi st2
            have p4 := stepUnwrap_ok_elim _ _ _ _ hu
            have p5 := presCore_setModeSt "OBJECT" st3
            have p6 := stepTexture_ok_elim _ _ _ _ _ ht
            exact presCore_trans p1 (presCore_trans p2 (presCore_trans p3
              (presCore_trans p4 (presCore_trans p5 p6))))
          · first
            | exact h
            | exact h.symm

/-! ### Structure of cage creation and export -/

theorem create_cage_objects (hb : String) (oi ri : Nat) (nm : String) (q : ℚ) (st : St) :
    (create_cage hb oi ri nm q st).scene.objects =
      st.scene.objects.map deselObj ++ [mkCage (getObjI st.scene oi) ri hb nm q] := rfl

theorem create_cage_fs (hb : String) (oi ri : Nat) (nm : String) (q : ℚ) (st : St) :
    (create_cage hb oi ri nm q st).fs = st.fs := rfl

theorem create_cage_exports (hb : String) (oi ri : Nat) (nm : String) (q : ℚ) (st : St) :
    (create_cage hb oi ri nm q st).exports = st.exports := rfl

theorem create_cage_filepath (hb : String) (oi ri : Nat) (nm : String) (q : ℚ) (st : St) :
    (create_cage hb oi ri nm q st).scene.filepath = st.scene.filepath := rfl

theorem mkCage_deselObj (o : Obj) (ri : Nat) (hb nm : String) (q : ℚ) :
    mkCage (deselObj o) ri hb nm q = mkCage o ri hb nm q := rfl

theorem mkCage_selected (o : Obj) (ri : Nat) (hb nm : String) (q : ℚ) :
    (mkCage o ri hb nm q).selected = false := rfl

theorem deselObj_deselObj (o : Obj) : deselObj (deselObj o) = deselObj o := rfl

theorem deselObj_obj0 : deselObj obj0 = obj0 := rfl

theorem deselObj_of_not_selected (o : Obj) (h : o.selected = false) : deselObj o = o := by
  cases o
  simp only [deselObj]
  simp_all

theorem map_deselObj_idem (l : List Obj) :
    (l.map deselObj).map deselObj = l.map deselObj := by
  rw [List.map_map]
  rfl

theorem getD_map_deselObj (l : List Obj) (i : Nat) :
    (l.map deselObj).getD i obj0 = deselObj (l.getD i obj0) :=
  getD_map_my deselObj l i obj0

theorem getD_mapWithIdxFrom0 {α : Type} (f : Nat → α → α) (m : Nat) (l : List α) (d : α)
    (h : m < l.length) : (mapWithIdxFrom f 0 l).getD m d = f m (l.getD m d) := by
  have := getD_mapWithIdxFrom f 0 m l d h
  simpa using this

theorem map_deselObj_selectAt (l : List Obj) (i : Nat) :
    (modifyAt (fun o => { o with selected := true }) i l).map deselObj = l.map deselObj :=
  map_modifyAt _ _ i _ (fun _ => rfl)

theorem stepRig_getD (hb : String) (oi ri : Nat) (st : St)
    (hoi : oi < st.scene.objects.length) (hne : oi ≠ ri) :
    getObjI (stepRig hb oi ri st).scene oi = rigT ri hb (getObjI st.scene oi) := by
  have hne' : ri ≠ oi := fun e => hne e.symm
  unfold stepRig getObjI rigT
  simp only [Scene.updObjs, Scene.deselectAll, Scene.selectAt, Scene.setActive,
    Scene.setMode, Scene.editSelectAllAt, armatureParent]
  simp only [getD_modifyAt_self, getD_modifyAt_ne, getD_map_deselObj, getD_mapWithIdxFrom0,
    length_modifyAt, length_mapWithIdxFrom, List.length_map, hoi, hne, hne', ne_eq,
    not_false_eq_true]
  simp [deselObj, hne']

theorem ensureDir_ok_pathExists (d : String) (fs fs2 : FS)
    (h : ensureDir d fs = Except.ok fs2) : pathExists fs2 d := by
  unfold ensureDir makedirs at h
  split at h
  next hex =>
    injection h with h
    subst h
    exact hex
  next hex =>
    split at h
    · cases h
    next hne =>
      injection h with h
      subst h
      exact ⟨hne, Or.inr (by simp)⟩

theorem stepExport_ok_elim (en ep : String) (oi ri : Nat) (st stF : St) (p : String)
    (h : stepExport en ep oi ri st = Except.ok (stF, p)) :
    p = resolve_export_path ep en st.scene.filepath st.fs ∧
    stF.scene.filepath = st.scene.filepath ∧
    stF.scene.objects.map deselObj = st.scene.objects.map deselObj ∧
    pathExists stF.fs (dirname p) ∧
    ∃ ns, stF.exports = st.exports ++ [(p, ns)] := by
  simp only [stepExport] at h
  split at h
  · cases h
  next fs2 heq =>
    split at h
    · cases h
    next ii heq2 =>
      split at h
      · cases h
      next ui heq3 =>
        injection h with h
        simp only [Prod.mk.injEq] at h
        obtain ⟨h1, h2⟩ := h
        subst h2
        refine ⟨rfl, ?_, ?_, ?_, ?_⟩
        · rw [← h1]
          rfl
        · rw [← h1]
          simp only [Scene.updObjs, Scene.deselectAll, Scene.selectAt]
          rw [map_deselObj_selectAt, map_deselObj_selectAt, map_deselObj_selectAt,
            map_deselObj_selectAt, map_deselObj_idem]
        · rw [← h1]
          exact ensureDir_ok_pathExists _ _ _ heq
        · rw [← h1]
          exact ⟨_, rfl⟩

/-! ### The successful run in full -/

theorem objGet_lt (sc : Scene) (n : String) (i : Nat) (h : objGet sc n = some i) :
    i < sc.objects.length := by
  unfold objGet at h
  have := nameIdx?_lt n _ i h
  simpa using this

theorem mkCage_name (o : Obj) (ri : Nat) (hb nm : String) (q : ℚ) :
    (mkCage o ri hb nm q).name = nm := rfl

theorem mkCage_objType (o : Obj) (ri : Nat) (hb nm : String) (q : ℚ) :
    (mkCage o ri hb nm q).objType = o.objType := rfl

theorem rigT_objType (ri : Nat) (hb : String) (o : Obj) :
    (rigT ri hb o).objType = o.objType := rfl

theorem rigT_vertsSelected (ri : Nat) (hb : String) (o : Obj) :
    (rigT ri hb o).vertsSelected = true := rfl

theorem mkCage_fields (o : Obj) (ri : Nat) (hb nm : String) (q : ℚ)
    (hsel : o.vertsSelected = true) :
    (mkCage o ri hb nm q).dataName = nm ∧
    (mkCage o ri hb nm q).vertices = o.vertices.map (scaleV q) ∧
    (mkCage o ri hb nm q).decimations = o.decimations ∧
    (mkCage o ri hb nm q).uvMethod = o.uvMethod ∧
    (mkCage o ri hb nm q).materials = o.materials ∧
    (mkCage o ri hb nm q).parent = some ri ∧
    (mkCage o ri hb nm q).parentType = "ARMATURE" ∧
    (mkCage o ri hb nm q).armatureBound = true ∧
    (mkCage o ri hb nm q).vertexGroups =
      vgAdd (List.range (o.vertices.map (scaleV q)).length) 1 hb (ensureVG hb o.vertexGroups) := by
  simp [mkCage, hsel]

theorem fields_of_deselObj_eq {a b : Obj} (h : deselObj a = deselObj b) :
    a.vertices = b.vertices ∧ a.decimations = b.decimations ∧ a.uvMethod = b.uvMethod ∧
    a.materials = b.materials ∧ a.objType = b.objType :=
  ⟨congrArg (fun o => o.vertices) h, congrArg (fun o => o.decimations) h,
   congrArg (fun o => o.uvMethod) h, congrArg (fun o => o.materials) h,
   congrArg (fun o => o.objType) h⟩

/-- A `cageProps` package for a cage duplicated from a selected mesh, stated
against any object sharing the source's relevant fields. -/
theorem cageProps_mkCage (o src : Obj) (ri : Nat) (hb nm : String) (q : ℚ)
    (hsel : o.vertsSelected = true) (htype : o.objType = "MESH")
    (hv : src.vertices = o.vertices) (hd : src.decimations = o.decimations)
    (hu : src.uvMethod = o.uvMethod) (hm : src.materials = o.materials) :
    cageProps (mkCage o ri hb nm q) src ri hb q := by
  obtain ⟨f1, f2, f3, f4, f5, f6, f7, f8, f9⟩ := mkCage_fields o ri hb nm q hsel
  refine ⟨(mkCage_objType o ri hb nm q).trans htype, f1.trans (mkCage_name o ri hb nm q).symm,
    ?_, f3.trans hd.symm, f4.trans hu.symm, f5.trans hm.symm, f6, f7, f8, ?_, ?_⟩
  · rw [f2, hv]
  · rw [f9]
    exact exists_name_vgAdd_ensure hb _ 1 o.vertexGroups
  · intro i hi
    rw [f9]
    rw [f2] at hi
    exact vgWeight_cage hb o.vertexGroups _ i hi

/-- Everything a `(true, _, _)` result of `prepare_for_roblox` pins down:
validation succeeded, the resolved path was printed and exported to, its
directory exists afterwards, and the final objects are the (deselected)
rigged originals followed by the two cages built from the rigged source. -/
theorem prepare_true_elim (cfg : Cfg) (st0 st' : St) (lg : List String)
    (h : prepare_for_roblox cfg st0 = (true, st', lg)) :
    ∃ oi ri st4 p ns,
      validate cfg st0.scene = Except.ok (oi, ri) ∧
      PresCore st0 st4 ∧
      PresCore st0 (stepRig cfg.head_bone_name oi ri st4) ∧
      p = resolve_export_path cfg.export_path cfg.object_name st0.scene.filepath st0.fs ∧
      lg = ["Successfully exported to: " ++ p] ∧
      pathExists st'.fs (dirname p) ∧
      st'.exports = st0.exports ++ [(p, ns)] ∧
      st'.scene.objects.map deselObj =
        (stepRig cfg.head_bone_name oi ri st4).scene.objects.map deselObj ++
          [mkCage (getObjI (stepRig cfg.head_bone_name oi ri st4).scene oi) ri
             cfg.head_bone_name "InnerCage" (mkRat 49 50),
           mkCage (getObjI (stepRig cfg.head_bone_name oi ri st4).scene oi) ri
             cfg.head_bone_name "OuterCage" (mkRat 51 50)] := by
  unfold prepare_for_roblox at h
  cases hp : pipeline cfg st0 with
  | error e =>
    rw [hp] at h
    obtain ⟨m, ste⟩ := e
    simp at h
  | ok pr =>
    rw [hp] at h
    obtain ⟨stF, p⟩ := pr
    simp only [Prod.mk.injEq] at h
    obtain ⟨-, hst, hlg⟩ := h
    subst hst
    obtain ⟨oi, ri, st4, hv, hpres04, hexp⟩ := pipeline_ok_elim cfg st0 stF p hp
    have hpres05 : PresCore st0 (stepRig cfg.head_bone_name oi ri st4) :=
      presCore_trans hpres04 (presCore_stepRig cfg.head_bone_name oi ri st4)
    -- abbreviations
    set st5 := stepRig cfg.head_bone_name oi ri st4 with hst5
    set src5 := getObjI st5.scene oi with hsrc5
    set inner := mkCage src5 ri cfg.head_bone_name "InnerCage" (mkRat 49 50) with hinner
    set outer := mkCage src5 ri cfg.head_bone_name "OuterCage" (mkRat 51 50) with houter
    -- bounds
    have hobj := (validate_ok_elim cfg st0.scene oi ri hv).1
    have hoi0 : oi < st0.scene.objects.length := objGet_lt _ _ _ hobj
    have hlen5 : st5.scene.objects.length = st0.scene.objects.length :=
      presCore_length hpres05
    have hoi5 : oi < st5.scene.objects.length := by rw [hlen5]; exact hoi0
    -- the two cage creations
    have hst6 : (create_cage cfg.head_bone_name oi ri "InnerCage" (mkRat 49 50) st5).scene.objects
        = st5.scene.objects.map deselObj ++ [inner] :=
      create_cage_objects cfg.head_bone_name oi ri "InnerCage" (mkRat 49 50) st5
    have hsrc6 : getObjI (create_cage cfg.head_bone_name oi ri "InnerCage"
        (mkRat 49 50) st5).scene oi = deselObj src5 := by
      unfold getObjI
      rw [hst6]
      rw [getD_append_left_my _ _ _ _ (by simpa using hoi5)]
      exact getD_map_deselObj st5.scene.objects oi
    have hst7 : (create_cage cfg.head_bone_name oi ri "OuterCage" (mkRat 51 50)
        (create_cage cfg.head_bone_name oi ri "InnerCage" (mkRat 49 50) st5)).scene.objects
        = st5.scene.objects.map deselObj ++ [inner, outer] := by
      rw [create_cage_objects, hsrc6, mkCage_deselObj, hst6]
      rw [List.map_append, map_deselObj_idem]
      rw [List.map_cons, List.map_nil,
        deselObj_of_not_selected inner (mkCage_selected src5 ri cfg.head_bone_name
          "InnerCage" (mkRat 49 50))]
      rw [List.append_assoc]
      rfl
    -- unpack the export step
    obtain ⟨hpEq, hfp, hmapsel, hpe, ns, hexports⟩ := stepExport_ok_elim _ _ _ _ _ _ _ hexp
    have hfs7 : (create_cage cfg.head_bone_name oi ri "OuterCage" (mkRat 51 50)
        (create_cage cfg.head_bone_name oi ri "InnerCage" (mkRat 49 50) st5)).fs = st0.fs := by
      rw [create_cage_fs, create_cage_fs]
      exact hpres05.1
    have hfp7 : (create_cage cfg.head_bone_name oi ri "OuterCage" (mkRat 51 50)
        (create_cage cfg.head_bone_name oi ri "InnerCage" (mkRat 49 50)
          st5)).scene.filepath = st0.scene.filepath := by
      rw [create_cage_filepath, create_cage_filepath]
      exact hpres05.2.2.1
    have hex7 : (create_cage cfg.head_bone_name oi ri "OuterCage" (mkRat 51 50)
        (create_cage cfg.head_bone_name oi ri "InnerCage" (mkRat 49 50) st5)).exports
        = st0.exports := by
      rw [create_cage_exports, create_cage_exports]
      exact hpres05.2.1
    refine ⟨oi, ri, st4, p, ns, hv, hpres04, hpres05, ?_, hlg.symm, hpe, ?_, ?_⟩
    · rw [hpEq, hfs7, hfp7]
    · rw [hexports, hex7]
    · rw [hmapsel, hst7]
      rw [List.map_append, map_deselObj_idem]
      rw [List.map_cons, List.map_cons, List.map_nil]
      rw [deselObj_of_not_selected inner (mkCage_selected _ _ _ _ _),
        deselObj_of_not_selected outer (mkCage_selected _ _ _ _ _)]

/-! ### Behavior of the batch converter -/

theorem cons_bind_my {α β : Type} (a : α) (l : List α) (g : α → List β) :
    (a :: l).bind g = g a ++ l.bind g := rfl

theorem convert_events (fs : BFS) (g o : String) (st : BSt) :
    (convert_glb_to_obj fs g o st).2.events = st.events ++ convertTrace fs g o := by
  unfold convert_glb_to_obj convertTrace
  cases fs.importResult g <;> simp

theorem convert_dirs (fs : BFS) (g o : String) (st : BSt) :
    (convert_glb_to_obj fs g o st).2.dirs = st.dirs := by
  unfold convert_glb_to_obj
  cases fs.importResult g <;> rfl

theorem batchLoop_events (fs : BFS) (inF outF : String) (files : List String) (st : BSt) :
    (batchLoop fs inF outF files st).events =
      st.events ++ (files.filter (fun f => (f.toLower).endsWith ".glb")).bind
        (fun f => convertTrace fs (os_path_join inF f) (batchOutPath outF f)) := by
  induction files generalizing st with
  | nil => simp [batchLoop]
  | cons f rest ih =>
    by_cases hf : ((f.toLower).endsWith ".glb") = true
    · simp only [batchLoop]
      rw [if_pos hf, ih, convert_events, List.filter_cons, if_pos hf, cons_bind_my]
      simp [batchOutPath, List.append_assoc]
    · have hf' : ¬ ((f.toLower).endsWith ".glb") = true := hf
      simp only [batchLoop]
      rw [if_neg hf', ih, List.filter_cons, if_neg hf']

theorem batchLoop_dirs (fs : BFS) (inF outF : String) (files : List String) (st : BSt) :
    (batchLoop fs inF outF files st).dirs = st.dirs := by
  induction files generalizing st with
  | nil => rfl
  | cons f rest ih =>
    by_cases hf : ((f.toLower).endsWith ".glb") = true
    · simp only [batchLoop]
      rw [if_pos hf, ih, convert_dirs]
    · simp only [batchLoop]
      rw [if_neg (by simp [hf]), ih]

theorem count_cleared_convertTrace (fs : BFS) (g o : String) :
    (convertTrace fs g o).count BEvent.cleared = 1 := by
  unfold convertTrace
  cases fs.importResult g <;> simp [List.count_cons, List.count_nil]

theorem filter_err_convertTrace (fs : BFS) (g o : String) :
    (convertTrace fs g o).filter isErrLog =
      if (fs.importResult g).isNone then [BEvent.logError g] else [] := by
  unfold convertTrace
  cases fs.importResult g <;> simp [isErrLog]

theorem count_cleared_bind (fs : BFS) (inF outF : String) (ms : List String) :
    ((ms.bind (fun f => convertTrace fs (os_path_join inF f) (batchOutPath outF f))).count
        BEvent.cleared) = ms.length := by
  induction ms with
  | nil => rfl
  | cons f rest ih =>
    rw [cons_bind_my, List.count_append, ih, count_cleared_convertTrace]
    simp [Nat.add_comm]

theorem filter_err_bind (fs : BFS) (inF outF : String) (ms : List String) :
    (ms.bind (fun f => convertTrace fs (os_path_join inF f) (batchOutPath outF f))).filter
        isErrLog =
      (ms.filter (fun f => (fs.importResult (os_path_join inF f)).isNone)).map
        (fun f => BEvent.logError (os_path_join inF f)) := by
  induction ms with
  | nil => rfl
  | cons f rest ih =>
    rw [cons_bind_my, List.filter_append, ih, filter_err_convertTrace]
    by_cases hf : (fs.importResult (os_path_join inF f)).isNone = true
    · rw [if_pos hf, List.filter_cons, if_pos hf, List.map_cons]
      rfl
    · rw [if_neg hf, List.filter_cons, if_neg hf]
      rfl

/-! ### The claims -/

/-- C6: `prepare_for_roblox` always returns a boolean and never lets an error
escape: every error raised by a step is caught once at the top, printed as an
`Error:` diagnostic, and turned into the result `False`, abandoning the
remaining steps; on success it prints the exported path and returns `True`. -/
theorem claim6_top_level_catch (cfg : Cfg) (st : St) :
    match pipeline cfg st with
    | Except.ok (st', p) =>
        prepare_for_roblox cfg st = (true, st', ["Successfully exported to: " ++ p])
    | Except.error (m, ste) =>
        prepare_for_roblox cfg st = (false, ste, ["Error: " ++ m]) := by
  unfold prepare_for_roblox
  cases hp : pipeline cfg st with
  | ok pr =>
    obtain ⟨st', p⟩ := pr
    rfl
  | error e =>
    obtain ⟨m, ste⟩ := e
    rfl

/-- C7: the batch converter creates the output directory when absent, and for
exactly the files whose name ends case-insensitively in ".glb" it appends, in
directory order, the trace clear-scene, import, select-all, export to
`<output_folder>/<stem>.obj` (or the single failure log when the import
throws); files that do not match contribute nothing. -/
theorem claim7_batch_per_file (fs : BFS) (inF outF : String) (files : List String) (st : BSt) :
    (batch_convert_glb_to_obj fs inF outF files st).events =
      (st.events ++ (if outF ∈ st.dirs then ([] : List BEvent) else [BEvent.madeDir outF])) ++
        (files.filter (fun f => (f.toLower).endsWith ".glb")).bind
          (fun f => convertTrace fs (os_path_join inF f) (batchOutPath outF f)) ∧
    outF ∈ (batch_convert_glb_to_obj fs inF outF files st).dirs := by
  unfold batch_convert_glb_to_obj
  by_cases hd : outF ∈ st.dirs
  · rw [if_pos hd]
    constructor
    · rw [batchLoop_events]
      simp [hd]
    · rw [batchLoop_dirs]
      exact hd
  · rw [if_neg hd]
    constructor
    · rw [batchLoop_events]
      simp [hd]
    · rw [batchLoop_dirs]
      simp

/-- C8: one conversion failure does not halt the batch: every matching file
is attempted (one scene clear per matching file, in order, whatever each
file's import outcome), and the failure logs are exactly one per matching
file whose import throws. -/
theorem claim8_batch_isolation (fs : BFS) (inF outF : String) (files : List String) (st : BSt) :
    (batch_convert_glb_to_obj fs inF outF files st).events.count BEvent.cleared =
      st.events.count BEvent.cleared +
        (files.filter (fun f => (f.toLower).endsWith ".glb")).length ∧
    (batch_convert_glb_to_obj fs inF outF files st).events.filter isErrLog =
      st.events.filter isErrLog ++
        ((files.filter (fun f => (f.toLower).endsWith ".glb")).filter
          (fun f => (fs.importResult (os_path_join inF f)).isNone)).map
            (fun f => BEvent.logError (os_path_join inF f)) := by
  unfold batch_convert_glb_to_obj
  by_cases hd : outF ∈ st.dirs
  · rw [if_pos hd]
    constructor
    · rw [batchLoop_events, List.count_append, count_cleared_bind]
    · rw [batchLoop_events, List.filter_append, filter_err_bind]
  · rw [if_neg hd]
    constructor
    · rw [batchLoop_events, List.count_append, count_cleared_bind, List.count_append]
      simp [List.count_cons, List.count_nil]
    · rw [batchLoop_events, List.filter_append, filter_err_bind, List.filter_append]
      simp [isErrLog]

/-- C9: the accessory-type tag and the attachment-point name are dead
parameters: two configurations differing only there produce identical
results, identical final states and identical output on every scene. -/
theorem claim9_accessory_attachment_unused (cfg : Cfg) (a b : String) (st : St) :
    prepare_for_roblox { cfg with accessory_type := a, attachment_name := b } st =
      prepare_for_roblox cfg st := by
  cases cfg
  rfl

/-- C10: an empty-string texture path behaves exactly like an absent one: the
whole texture step is skipped (no FileNotFound, no material work) and the run
is otherwise identical. -/
theorem claim10_empty_texture_like_none (cfg : Cfg) (st : St) :
    prepare_for_roblox { cfg with texture_path := some "" } st =
      prepare_for_roblox { cfg with texture_path := none } st ∧
    (∀ (mn : String) (oi : Nat) (s : St), stepTexture (some "") mn oi s = Except.ok s) := by
  constructor
  · cases cfg
    rfl
  · intro mn oi s
    rfl

/-- C3: a configuration naming an object that is absent or not a mesh, a rig
that is absent or not an armature, or a head bone absent from the armature
makes validation raise, and `prepare_for_roblox` then returns `False` with
the scene, filesystem and exports exactly as it found them. -/
theorem claim3_validation_failure_no_mutation (cfg : Cfg) (st : St) :
    (objGet st.scene cfg.object_name = none →
      ∃ m, validate cfg st.scene = Except.error m) ∧
    (∀ oi, objGet st.scene cfg.object_name = some oi →
      (getObjI st.scene oi).objType ≠ "MESH" →
      ∃ m, validate cfg st.scene = Except.error m) ∧
    (objGet st.scene cfg.rig_name = none →
      ∃ m, validate cfg st.scene = Except.error m) ∧
    (∀ ri, objGet st.scene cfg.rig_name = some ri →
      (getObjI st.scene ri).objType ≠ "ARMATURE" →
      ∃ m, validate cfg st.scene = Except.error m) ∧
    (∀ ri, objGet st.scene cfg.rig_name = some ri →
      cfg.head_bone_name ∉ (getObjI st.scene ri).bones →
      ∃ m, validate cfg st.scene = Except.error m) ∧
    (∀ m, validate cfg st.scene = Except.error m →
      prepare_for_roblox cfg st = (false, st, ["Error: " ++ m])) := by
  have key : (∃ m, validate cfg st.scene = Except.error m) ∨
      ∃ oi ri, objGet st.scene cfg.object_name = some oi ∧
        (getObjI st.scene oi).objType = "MESH" ∧
        objGet st.scene cfg.rig_name = some ri ∧
        (getObjI st.scene ri).objType = "ARMATURE" ∧
        cfg.head_bone_name ∈ (getObjI st.scene ri).bones := by
    cases hv : validate cfg st.scene with
    | error m => exact Or.inl ⟨m, rfl⟩
    | ok pr =>
      obtain ⟨oi, ri⟩ := pr
      exact Or.inr ⟨oi, ri, validate_ok_elim cfg st.scene oi ri hv⟩
  refine ⟨?_, ?_, ?_, ?_, ?_, ?_⟩
  · intro hob
    rcases key with hk | ⟨oi, ri, h1, _⟩
    · exact hk
    · rw [hob] at h1
      cases h1
  · intro oi hob hmesh
    rcases key with hk | ⟨oj, ri, h1, h2, _⟩
    · exact hk
    · rw [hob] at h1
      injection h1 with h1
      subst h1
      exact absurd h2 hmesh
  · intro hrg
    rcases key with hk | ⟨oi, ri, _, _, h3, _⟩
    · exact hk
    · rw [hrg] at h3
      cases h3
  · intro ri hrg harm
    rcases key with hk | ⟨oi, rj, _, _, h3, h4, _⟩
    · exact hk
    · rw [hrg] at h3
      injection h3 with h3
      subst h3
      exact absurd h4 harm
  · intro ri hrg hbone
    rcases key with hk | ⟨oi, rj, _, _, h3, _, h5⟩
    · exact hk
    · rw [hrg] at h3
      injection h3 with h3
      subst h3
      exact absurd h5 hbone
  · intro m hm
    unfold prepare_for_roblox pipeline
    rw [hm]

/-- C3 witness: on the concrete scene, a configuration naming a missing
object fails validation and the run returns `False` with the state intact. -/
theorem claim3_witness :
    prepare_for_roblox { wCfg with object_name := "Nope" } wSt =
      (false, wSt, ["Error: Object Nope not found or is not a mesh."]) :=
  (claim3_validation_failure_no_mutation { wCfg with object_name := "Nope" } wSt).2.2.2.2.2
    "Object Nope not found or is not a mesh." rfl

/-- C1 counterexample: with an out-of-range ratio and the apply-scale flag
set, the run does fail, but the object's geometry has already been mutated by
the scale bake at the moment of failure — the scene is not unchanged. -/
theorem claim1_counterexample :
    (prepare_for_roblox { wCfg with decimate_ratio := some (mkRat 3 2) } wSt).1 = false ∧
    (getObjI (prepare_for_roblox { wCfg with decimate_ratio := some (mkRat 3 2) } wSt).2.1.scene
        0).vertices ≠ (getObjI wSt.scene 0).vertices := by
  constructor
  · rfl
  · decide

/-- C1 (amended): when validation passes and the configured ratio lies
outside `[0,1]`, `prepare_for_roblox` fails with the invalid-ratio
diagnostic; at the moment of failure no decimation, unwrap, material, rig,
cage or export mutation has happened (filesystem, exports, object names and
kinds are untouched), only the active-object/mode bookkeeping has run — and,
when the apply-scale flag is set, the scale bake has already been applied,
while with the flag clear the scene's objects are exactly the initial ones. -/
theorem claim1_amended (cfg : Cfg) (st0 : St) (oi ri : Nat) (r : ℚ)
    (hv : validate cfg st0.scene = Except.ok (oi, ri))
    (hr : cfg.decimate_ratio = some r) (hout : ¬(0 ≤ r ∧ r ≤ 1)) :
    prepare_for_roblox cfg st0 =
      (false, stepObjectMode cfg.apply_scale oi st0,
        ["Error: decimate_ratio must be between 0.0 and 1.0"]) ∧
    PresCore st0 (stepObjectMode cfg.apply_scale oi st0) ∧
    (cfg.apply_scale = false →
      (stepObjectMode cfg.apply_scale oi st0).scene.objects = st0.scene.objects) := by
  refine ⟨?_, presCore_stepObjectMode cfg.apply_scale oi st0, ?_⟩
  · unfold prepare_for_roblox pipeline stepDecimate
    rw [hv]
    simp only []
    rw [hr]
    simp only []
    rw [if_neg hout]
    rfl
  · intro hfalse
    rw [hfalse]
    rfl

/-- C1 witness: the amended theorem applied to the concrete scene with ratio
`3/2`. -/
theorem claim1_witness :
    prepare_for_roblox { wCfg with decimate_ratio := some (mkRat 3 2) } wSt =
      (false, stepObjectMode ({ wCfg with decimate_ratio := some (mkRat 3 2) } : Cfg).apply_scale 0 wSt,
        ["Error: decimate_ratio must be between 0.0 and 1.0"]) :=
  (claim1_amended { wCfg with decimate_ratio := some (mkRat 3 2) } wSt 0 1 (mkRat 3 2) rfl rfl
    (by decide)).1

/-- C2 counterexample: with a valid ratio, the apply-scale flag set and an
unrecognized unwrap method, the run fails with the invalid-method diagnostic,
but the scale bake and the decimation have already mutated the object at the
moment of failure — the failure is not before geometry mutation. -/
theorem claim2_counterexample :
    (prepare_for_roblox { wCfg with uv_unwrap_method := "CUBE" } wSt).1 = false ∧
    (prepare_for_roblox { wCfg with uv_unwrap_method := "CUBE" } wSt).2.2 =
      ["Error: Invalid uv_unwrap_method: CUBE"] ∧
    (getObjI (prepare_for_roblox { wCfg with uv_unwrap_method := "CUBE" } wSt).2.1.scene
        0).decimations ≠ ([] : List ℚ) ∧
    (getObjI (prepare_for_roblox { wCfg with uv_unwrap_method := "CUBE" } wSt).2.1.scene
        0).vertices ≠ (getObjI wSt.scene 0).vertices := by
  refine ⟨rfl, rfl, ?_, ?_⟩ <;> decide

/-- C2 (amended): when validation passes, the ratio (if any) is in range and
the unwrap method is unrecognized, `prepare_for_roblox` fails with the
invalid-method diagnostic after validation; at that moment no unwrap,
material, rigging, cage or export mutation has happened (filesystem, exports,
scene materials, object names, uv maps, parents, vertex groups and material
slots are untouched) — but the scale bake and the configured decimation have
already been applied to the object's geometry. -/
theorem claim2_amended (cfg : Cfg) (st0 : St) (oi ri : Nat)
    (hv : validate cfg st0.scene = Except.ok (oi, ri))
    (hrok : ∀ r, cfg.decimate_ratio = some r → 0 ≤ r ∧ r ≤ 1)
    (hm1 : cfg.uv_unwrap_method ≠ "SMART_PROJECT")
    (hm2 : cfg.uv_unwrap_method ≠ "UNWRAP") :
    ∃ stE, prepare_for_roblox cfg st0 =
        (false, stE, ["Error: Invalid uv_unwrap_method: " ++ cfg.uv_unwrap_method]) ∧
      PresEarly st0 stE := by
  have hd : ∃ st2, stepDecimate cfg.decimate_ratio oi (stepObjectMode cfg.apply_scale oi st0) =
      Except.ok st2 := by
    cases hr : cfg.decimate_ratio with
    | none => exact ⟨_, rfl⟩
    | some r =>
      simp only [stepDecimate]
      rw [if_pos (hrok r hr)]
      exact ⟨_, rfl⟩
  obtain ⟨st2, hd⟩ := hd
  refine ⟨stepUVpre oi st2, ?_, ?_⟩
  · unfold prepare_for_roblox pipeline
    rw [hv]
    simp only []
    rw [hd]
    simp only [stepUnwrap]
    rw [if_neg hm1, if_neg hm2]
    rfl
  · exact presEarly_trans (presEarly_stepObjectMode cfg.apply_scale oi st0)
      (presEarly_trans (stepDecimate_ok_presEarly _ _ _ _ hd) (presEarly_stepUVpre oi st2))

/-- C4: every successful run on a scene without pre-existing cage names
leaves exactly two new objects, exactly one named "InnerCage" and one named
"OuterCage", each a mesh duplicate of the rigged source scaled by 0.98
resp. 1.02, parented to the armature with the deform binding, and carrying a
head-bone vertex group holding every one of its vertices at weight one. -/
theorem claim4_two_cages (cfg : Cfg) (st0 st' : St) (lg : List String)
    (h : prepare_for_roblox cfg st0 = (true, st', lg))
    (hno : ∀ o ∈ st0.scene.objects, o.name ≠ "InnerCage" ∧ o.name ≠ "OuterCage") :
    st'.scene.objects.length = st0.scene.objects.length + 2 ∧
    ∃ oi ri, objGet st'.scene cfg.object_name = some oi ∧
      objGet st'.scene cfg.rig_name = some ri ∧
      (getObjI st'.scene ri).objType = "ARMATURE" ∧
      st'.scene.objects.countP (fun o => o.name == "InnerCage") = 1 ∧
      st'.scene.objects.countP (fun o => o.name == "OuterCage") = 1 ∧
      ∀ c ∈ st'.scene.objects,
        (c.name = "InnerCage" →
          cageProps c (getObjI st'.scene oi) ri cfg.head_bone_name (mkRat 49 50)) ∧
        (c.name = "OuterCage" →
          cageProps c (getObjI st'.scene oi) ri cfg.head_bone_name (mkRat 51 50)) := by
  obtain ⟨oi, ri, st4, p, ns, hv, hpres04, hpres05, hpEq, hlg, hpe, hexpo, hfinal⟩ :=
    prepare_true_elim cfg st0 st' lg h
  set st5 := stepRig cfg.head_bone_name oi ri st4 with hst5def
  set src5 := getObjI st5.scene oi with hsrc5def
  obtain ⟨hobj, hmesh, hrig, harm, hbone⟩ := validate_ok_elim cfg st0.scene oi ri hv
  have hoi0 : oi < st0.scene.objects.length := objGet_lt _ _ _ hobj
  have hri0 : ri < st0.scene.objects.length := objGet_lt _ _ _ hrig
  have hne : oi ≠ ri := by
    intro e
    rw [e] at hmesh
    exact absurd (hmesh.symm.trans harm) (by decide)
  have hlen5 : st5.scene.objects.length = st0.scene.objects.length := presCore_length hpres05
  have hoi5 : oi < st5.scene.objects.length := by rw [hlen5]; exact hoi0
  have hnames5 : st5.scene.objects.map (fun o => o.name) =
      st0.scene.objects.map (fun o => o.name) := hpres05.2.2.2.1
  have htypes5 : st5.scene.objects.map (fun o => o.objType) =
      st0.scene.objects.map (fun o => o.objType) := hpres05.2.2.2.2
  have hlen4 : st4.scene.objects.length = st0.scene.objects.length := presCore_length hpres04
  have hoi4 : oi < st4.scene.objects.length := by rw [hlen4]; exact hoi0
  have hsrc5 : src5 = rigT ri cfg.head_bone_name (getObjI st4.scene oi) :=
    stepRig_getD cfg.head_bone_name oi ri st4 hoi4 hne
  have hsrc5type : src5.objType = "MESH" := by
    rw [hsrc5, rigT_objType, getObjI_objType_congr hpres04.2.2.2.2 oi]
    exact hmesh
  have hsrc5sel : src5.vertsSelected = true := by
    rw [hsrc5]
    rfl
  have hNames' : st'.scene.objects.map (fun o => o.name) =
      st0.scene.objects.map (fun o => o.name) ++ ["InnerCage", "OuterCage"] := by
    rw [← map_name_map_deselObj st'.scene.objects, hfinal, List.map_append,
      map_name_map_deselObj, hnames5]
    rfl
  have hTypes' : st'.scene.objects.map (fun o => o.objType) =
      st0.scene.objects.map (fun o => o.objType) ++ ["MESH", "MESH"] := by
    rw [← map_objType_map_deselObj st'.scene.objects, hfinal, List.map_append,
      map_objType_map_deselObj, htypes5]
    simp [mkCage_objType, hsrc5type]
  refine ⟨?_, oi, ri, ?_, ?_, ?_, ?_, ?_, ?_⟩
  · have := congrArg List.length hNames'
    simpa using this
  · show nameIdx? cfg.object_name (st'.scene.objects.map (fun o => o.name)) = some oi
    rw [hNames']
    exact nameIdx?_append_left _ _ _ _ hobj
  · show nameIdx? cfg.rig_name (st'.scene.objects.map (fun o => o.name)) = some ri
    rw [hNames']
    exact nameIdx?_append_left _ _ _ _ hrig
  · have e1 := getD_map_my (fun o => o.objType) st'.scene.objects ri obj0
    have e2 := getD_map_my (fun o => o.objType) st0.scene.objects ri obj0
    show (st'.scene.objects.getD ri obj0).objType = "ARMATURE"
    rw [← e1, hTypes', getD_append_left_my _ _ _ _ (by simpa using hri0), e2]
    exact harm
  · rw [show (fun (o : Obj) => o.name == "InnerCage") =
      ((fun x => x == "InnerCage") ∘ fun o => o.name) from rfl, ← List.countP_map, hNames',
      List.countP_append]
    have hz : (st0.scene.objects.map (fun o => o.name)).countP
        (fun x => x == "InnerCage") = 0 := by
      rw [List.countP_eq_zero]
      intro a ha
      rcases List.mem_map.mp ha with ⟨o, ho, rfl⟩
      simpa using (hno o ho).1
    rw [hz]
    rfl
  · rw [show (fun (o : Obj) => o.name == "OuterCage") =
      ((fun x => x == "OuterCage") ∘ fun o => o.name) from rfl, ← List.countP_map, hNames',
      List.countP_append]
    have hz : (st0.scene.objects.map (fun o => o.name)).countP
        (fun x => x == "OuterCage") = 0 := by
      rw [List.countP_eq_zero]
      intro a ha
      rcases List.mem_map.mp ha with ⟨o, ho, rfl⟩
      simpa using (hno o ho).2
    rw [hz]
    rfl
  · intro c hc
    have hsrc'eq : deselObj (getObjI st'.scene oi) = deselObj src5 := by
      have e3 := getD_map_deselObj st'.scene.objects oi
      rw [hfinal, getD_append_left_my _ _ _ _ (by simpa using hoi5),
        getD_map_deselObj] at e3
      exact e3.symm
    obtain ⟨hfv, hfd, hfu, hfm, hft⟩ := fields_of_deselObj_eq hsrc'eq
    have hdc : deselObj c ∈ st'.scene.objects.map deselObj := List.mem_map_of_mem deselObj hc
    rw [hfinal] at hdc
    rcases List.mem_append.mp hdc with hIn | hIn
    · have hmem : (deselObj c).name ∈ (st5.scene.objects.map deselObj).map
          (fun o => o.name) := List.mem_map_of_mem _ hIn
      rw [map_name_map_deselObj, hnames5] at hmem
      rcases List.mem_map.mp hmem with ⟨o, ho, he⟩
      constructor
      · intro hcn
        exact absurd (he.trans hcn) (hno o ho).1
      · intro hcn
        exact absurd (he.trans hcn) (hno o ho).2
    · rcases List.mem_cons.mp hIn with hI | hIn2
      · have hcname : c.name = "InnerCage" := congrArg (fun o => o.name) hI
        constructor
        · intro _
          have hprops := cageProps_mkCage src5 (getObjI st'.scene oi) ri cfg.head_bone_name
            "InnerCage" (mkRat 49 50) hsrc5sel hsrc5type hfv hfd hfu hfm
          have hstep : cageProps (deselObj c) (getObjI st'.scene oi) ri cfg.head_bone_name
              (mkRat 49 50) := by
            rw [hI]
            exact hprops
          exact hstep
        · intro hoc
          rw [hcname] at hoc
          exact absurd hoc (by decide)
      · have hO : deselObj c = mkCage src5 ri cfg.head_bone_name "OuterCage" (mkRat 51 50) :=
          List.mem_singleton.mp hIn2
        have hcname : c.name = "OuterCage" := congrArg (fun o => o.name) hO
        constructor
        · intro hic
          rw [hcname] at hic
          exact absurd hic (by decide)
        · intro _
          have hprops := cageProps_mkCage src5 (getObjI st'.scene oi) ri cfg.head_bone_name
            "OuterCage" (mkRat 51 50) hsrc5sel hsrc5type hfv hfd hfu hfm
          have hstep : cageProps (deselObj c) (getObjI st'.scene oi) ri cfg.head_bone_name
              (mkRat 51 50) := by
            rw [hO]
            exact hprops
          exact hstep

/-- C4 witness: on the concrete scene the run succeeds, adds exactly two
objects, and exactly one is named "InnerCage" and one "OuterCage". -/
theorem claim4_witness :
    (prepare_for_roblox wCfg wSt).2.1.scene.objects.length =
      wSt.scene.objects.length + 2 ∧
    (prepare_for_roblox wCfg wSt).2.1.scene.objects.countP
      (fun o => o.name == "InnerCage") = 1 ∧
    (prepare_for_roblox wCfg wSt).2.1.scene.objects.countP
      (fun o => o.name == "OuterCage") = 1 := by
  obtain ⟨h1, oi, ri, -, -, -, h5, h6, -⟩ :=
    claim4_two_cages wCfg wSt (prepare_for_roblox wCfg wSt).2.1
      (prepare_for_roblox wCfg wSt).2.2 (by decide) (by decide)
  exact ⟨h1, h5, h6⟩

/-- C5: on a successful run the path `prepare_for_roblox` resolves, prints
and exports to is: the configured path itself when non-empty and not an
existing directory; `<dir>/<object>.fbx` when the configured path is an
existing directory; `<blend-file dir>/<object>.fbx` when empty — and the
directory of the resolved path exists in the filesystem afterwards. -/
theorem claim5_export_path (cfg : Cfg) (st0 st' : St) (lg : List String)
    (h : prepare_for_roblox cfg st0 = (true, st', lg)) :
    (cfg.export_path = "" →
      resolve_export_path cfg.export_path cfg.object_name st0.scene.filepath st0.fs =
        dirname st0.scene.filepath ++ "/" ++ cfg.object_name ++ ".fbx") ∧
    (cfg.export_path ≠ "" → isDirFS st0.fs cfg.export_path →
      resolve_export_path cfg.export_path cfg.object_name st0.scene.filepath st0.fs =
        os_path_join cfg.export_path (cfg.object_name ++ ".fbx")) ∧
    (cfg.export_path ≠ "" → ¬ isDirFS st0.fs cfg.export_path →
      resolve_export_path cfg.export_path cfg.object_name st0.scene.filepath st0.fs =
        cfg.export_path) ∧
    lg = ["Successfully exported to: " ++
      resolve_export_path cfg.export_path cfg.object_name st0.scene.filepath st0.fs] ∧
    pathExists st'.fs
      (dirname (resolve_export_path cfg.export_path cfg.object_name
        st0.scene.filepath st0.fs)) ∧
    ∃ ns, st'.exports = st0.exports ++
      [(resolve_export_path cfg.export_path cfg.object_name st0.scene.filepath st0.fs,
        ns)] := by
  obtain ⟨oi, ri, st4, p, ns, hv, -, -, hpEq, hlg, hpe, hexpo, -⟩ :=
    prepare_true_elim cfg st0 st' lg h
  subst hpEq
  refine ⟨?_, ?_, ?_, hlg, hpe, ⟨ns, hexpo⟩⟩
  · intro he
    unfold resolve_export_path
    rw [if_pos he]
  · intro hne hdir
    unfold resolve_export_path
    rw [if_neg hne, if_pos hdir]
  · intro hne hdir
    unfold resolve_export_path
    rw [if_neg hne, if_neg hdir]

/-- C5 witness: on the concrete scene, whose configured export path "out" is
an existing directory, the resolved path is "out/Part.fbx"; it is printed,
its directory exists afterwards, and exactly one export artifact lands
there. -/
theorem claim5_witness :
    (prepare_for_roblox wCfg wSt).2.2 = ["Successfully exported to: out/Part.fbx"] ∧
    pathExists (prepare_for_roblox wCfg wSt).2.1.fs (dirname "out/Part.fbx") ∧
    ∃ ns, (prepare_for_roblox wCfg wSt).2.1.exports =
      wSt.exports ++ [("out/Part.fbx", ns)] := by
  obtain ⟨-, -, -, h4, h5, h6⟩ :=
    claim5_export_path wCfg wSt (prepare_for_roblox wCfg wSt).2.1
      (prepare_for_roblox wCfg wSt).2.2 (by decide)
  have hres : resolve_export_path wCfg.export_path wCfg.object_name
      wSt.scene.filepath wSt.fs = "out/Part.fbx" := by decide
  rw [hres] at h4 h5 h6
  exact ⟨h4, h5, h6⟩

/-- C2 witness: the amended theorem applied to the concrete scene with the
unrecognized method "CUBE". -/
theorem claim2_witness :
    ∃ stE, prepare_for_roblox { wCfg with uv_unwrap_method := "CUBE" } wSt =
        (false, stE, ["Error: Invalid uv_unwrap_method: CUBE"]) ∧
      PresEarly wSt stE :=
  claim2_amended { wCfg with uv_unwrap_method := "CUBE" } wSt 0 1 rfl
    (fun r hr => by
      injection hr with hr
      rw [← hr]
      decide)
    (by decide) (by decide)

end RobloxFormatting
